import Mathlib

/-!
Verification development for the LLM-orchestration core of the
Webex-Chatbot repository: wire model (`app/models/llm.py`,
`app/models/tools.py`), the tool-execution gateway
(`app/services/mcp_service.py`), the provider registry
(`app/providers/registry.py`), the orchestration engine
(`app/services/llm_service.py`), and the streaming tool-call
accumulators of the Anthropic and OpenAI providers
(`app/providers/anthropic.py`, `app/providers/openai.py`).

Python dictionaries with arbitrary values are embedded as a first-order
JSON value type; network and SDK effects are embedded as explicit
oracle functions passed to the embedded operations.
-/

/-- JSON value, embedding Python `dict[str, Any]`/`list`/scalars as used by
the repository's tool schemas and tool-call arguments.  Objects are
insertion-ordered association lists, as Python dicts are. -/
inductive Json where
  | null : Json
  | bool (b : Bool) : Json
  | num (n : Int) : Json
  | str (s : String) : Json
  | arr (xs : List Json) : Json
  | obj (kvs : List (String × Json)) : Json


namespace Json

/-- First value bound to `key`, as Python `dict[key]` / `key in dict`
(Python dict keys are unique; the embedding looks up the first binding). -/
def lookup (kvs : List (String × Json)) (key : String) : Option Json :=
  match kvs with
  | [] => none
  | (k, v) :: rest => if k = key then some v else lookup rest key

end Json

/-- `app/models/llm.py` `MessageRole`. -/
inductive MessageRole where
  | system
  | user
  | assistant
  | tool
deriving DecidableEq

/-- `app/models/llm.py` `ToolCall`. -/
structure ToolCall where
  id : String
  name : String
  arguments : List (String × Json)


/-- `app/models/llm.py` `ToolResult`. -/
structure ToolResult where
  tool_call_id : String
  content : String
  is_error : Bool := false
deriving DecidableEq

/-- `app/models/llm.py` `ChatMessage`.  Python's `tool_calls: list | None`
is embedded as a list, `[]` standing for `None`; the code only ever
tests its truthiness, which identifies the two. -/
structure ChatMessage where
  role : MessageRole
  content : String
  tool_calls : List ToolCall := []
  tool_call_id : Option String := none
  name : Option String := none


/-- `app/models/llm.py` `LLMResponse` (token usage is not modelled; no
claim mentions it). -/
structure LLMResponse where
  content : String
  tool_calls : List ToolCall := []
  finish_reason : String
  model : String := ""
  provider : String := ""


/-- `app/models/llm.py` `StreamChunk`. -/
structure StreamChunk where
  content : Option String := none
  tool_calls : List ToolCall := []
  done : Bool := false
  finish_reason : Option String := none


/-- Python truthiness of an optional string (`if chunk.content:`):
true iff present and non-empty. -/
def strTruthy : Option String → Bool
  | none => false
  | some s => !s.isEmpty

/-! ## Tool-execution gateway (`app/services/mcp_service.py`) -/

/-- Content of a tool-endpoint response (`result_data.get("content", "")`
in `MCPService.execute_tool`): one item of the list-of-blocks case. -/
inductive MCPBlock where
  | textBlock (s : String)
  | strBlock (s : String)
  | otherBlock

/-- Shapes of the endpoint's `content` field handled by
`MCPService.execute_tool`: a plain string, a list of mixed blocks, or a
dict (the latter carried together with its Python `str()` rendering). -/
inductive MCPContent where
  | text (s : String)
  | blocks (items : List MCPBlock)
  | dict (rendered : String)

/-- Content normalization of `MCPService.execute_tool` (lines 113-124):
list content is flattened by joining the `text` of dict blocks and bare
string blocks with newlines; dicts are rendered with `str`. -/
def extractContent : MCPContent → String
  | .text s => s
  | .blocks items =>
      String.intercalate "\n" (items.filterMap fun
        | .textBlock s => some s
        | .strBlock s => some s
        | .otherBlock => none)
  | .dict rendered => rendered

/-- Possible outcomes of the per-call task spawned by
`MCPService.execute_tools`: `transportError` is an `httpx.HTTPError`
from the POST or `raise_for_status`, `notFound` is HTTP 404, `ok` is a
parsed `{content, isError}` body, and `raised` is any other exception
escaping the task (caught by `asyncio.gather(..., return_exceptions=True)`). -/
inductive TaskOutcome where
  | transportError (msg : String)
  | notFound
  | ok (content : MCPContent) (isError : Bool)
  | raised (msg : String)

/-- `MCPService.execute_tool`, with the HTTP interaction abstracted into a
`gateway` oracle.  `Except.error` is an exception escaping the coroutine. -/
def execute_tool (enabled : Bool) (gateway : ToolCall → TaskOutcome)
    (tc : ToolCall) : Except String ToolResult :=
  if enabled = false then
    .ok ⟨tc.id, "MCP tools are disabled", true⟩
  else
    match gateway tc with
    | .notFound => .ok ⟨tc.id, "Tool '" ++ tc.name ++ "' not found", true⟩
    | .ok content isError => .ok ⟨tc.id, extractContent content, isError⟩
    | .transportError e => .ok ⟨tc.id, "Tool execution failed: " ++ e, true⟩
    | .raised e => .error e

/-- `MCPService.execute_tools`: fan-out over the batch, with
`return_exceptions=True` converting a raised task into an error result
correlated by position. -/
def execute_tools (enabled : Bool) (gateway : ToolCall → TaskOutcome)
    (tool_calls : List ToolCall) : List ToolResult :=
  tool_calls.map fun tc =>
    match execute_tool enabled gateway tc with
    | .ok r => r
    | .error e => ⟨tc.id, "Tool execution error: " ++ e, true⟩

/-- A non-raising task of `execute_tool` always correlates its result to
the call's id. -/
theorem executeTool_ok_id (enabled : Bool) (gateway : ToolCall → TaskOutcome)
    (tc : ToolCall) (r : ToolResult)
    (h : execute_tool enabled gateway tc = .ok r) : r.tool_call_id = tc.id := by
  unfold execute_tool at h
  split at h
  · cases h; rfl
  · split at h <;> cases h <;> rfl

/-- C2: for every batch of K tool calls, `execute_tools` returns exactly K
results, the i-th carrying the i-th call's id; each failing call
(unknown tool, transport error, or an exception raised by its task)
becomes an `is_error = true` result with a descriptive message without
affecting the other positions; a successful call carries the gateway's
normalized content; and when the gateway is disabled every call yields
the disabled error result and the gateway oracle is never consulted. -/
theorem executeTools_length_order_isolation (enabled : Bool)
    (gateway : ToolCall → TaskOutcome) (tcs : List ToolCall) :
    (execute_tools enabled gateway tcs).length = tcs.length
    ∧ (∀ (i : Nat) (tc : ToolCall), tcs[i]? = some tc →
        ∃ r, (execute_tools enabled gateway tcs)[i]? = some r
          ∧ r.tool_call_id = tc.id)
    ∧ (∀ (i : Nat) (tc : ToolCall), tcs[i]? = some tc → enabled = true →
        (gateway tc = .notFound →
          (execute_tools enabled gateway tcs)[i]?
            = some ⟨tc.id, "Tool '" ++ tc.name ++ "' not found", true⟩)
        ∧ (∀ e, gateway tc = .transportError e →
          (execute_tools enabled gateway tcs)[i]?
            = some ⟨tc.id, "Tool execution failed: " ++ e, true⟩)
        ∧ (∀ e, gateway tc = .raised e →
          (execute_tools enabled gateway tcs)[i]?
            = some ⟨tc.id, "Tool execution error: " ++ e, true⟩)
        ∧ (∀ c b, gateway tc = .ok c b →
          (execute_tools enabled gateway tcs)[i]?
            = some ⟨tc.id, extractContent c, b⟩))
    ∧ (enabled = false →
        (∀ gateway', execute_tools false gateway' tcs
            = execute_tools enabled gateway tcs)
        ∧ (∀ (i : Nat) (tc : ToolCall), tcs[i]? = some tc →
          (execute_tools enabled gateway tcs)[i]?
            = some ⟨tc.id, "MCP tools are disabled", true⟩)) := by
  refine ⟨List.length_map _ _, ?_, ?_, ?_⟩
  · intro i tc h
    cases hr : execute_tool enabled gateway tc with
    | ok r =>
        exact ⟨r, by simp [execute_tools, List.getElem?_map, h, hr],
          executeTool_ok_id _ _ _ _ hr⟩
    | error e =>
        exact ⟨⟨tc.id, "Tool execution error: " ++ e, true⟩,
          by simp [execute_tools, List.getElem?_map, h, hr], rfl⟩
  · intro i tc h he
    subst he
    refine ⟨?_, ?_, ?_, ?_⟩
    · intro hg; simp [execute_tools, List.getElem?_map, h, execute_tool, hg]
    · intro e hg; simp [execute_tools, List.getElem?_map, h, execute_tool, hg]
    · intro e hg; simp [execute_tools, List.getElem?_map, h, execute_tool, hg]
    · intro c b hg; simp [execute_tools, List.getElem?_map, h, execute_tool, hg]
  · intro he
    subst he
    exact ⟨fun _ => rfl,
      fun i tc h => by simp [execute_tools, List.getElem?_map, h, execute_tool]⟩

/-- Witness for C2: a concrete two-call batch with one success and one
unknown tool, and a disabled-gateway call. -/
theorem executeTools_length_order_isolation_witness :
    (execute_tools true
        (fun tc => if tc.name = "t1" then .ok (.text "A") false else .notFound)
        [⟨"id1", "t1", []⟩, ⟨"id2", "t2", []⟩])[1]?
      = some ⟨"id2", "Tool 't2' not found", true⟩
    ∧ (execute_tools false (fun _ => .notFound) [⟨"id1", "t1", []⟩])[0]?
      = some ⟨"id1", "MCP tools are disabled", true⟩ :=
  ⟨((executeTools_length_order_isolation true
        (fun tc => if tc.name = "t1" then .ok (.text "A") false else .notFound)
        [⟨"id1", "t1", []⟩, ⟨"id2", "t2", []⟩]).2.2.1
      1 ⟨"id2", "t2", []⟩ rfl rfl).1 rfl,
   ((executeTools_length_order_isolation false (fun _ => .notFound)
        [⟨"id1", "t1", []⟩]).2.2.2 rfl).2 0 ⟨"id1", "t1", []⟩ rfl⟩

/-! ## Tool definitions (`app/models/tools.py`) -/

/-- `Tool` (`app/models/tools.py`): name, description, JSON-Schema
parameters (a Python dict, embedded as an ordered association list). -/
structure Tool where
  name : String
  description : String
  parameters : List (String × Json)

/-- One verbatim-copied entry of `Tool._convert_schema_for_gemini`
(`required`, `description`, `enum`): present iff the key is present,
value copied unchanged. -/
def geminiEntryVerbatim (key : String) (kvs : List (String × Json)) :
    List (String × Json) :=
  match Json.lookup kvs key with
  | none => []
  | some v => [(key, v)]

/-- Python `str.upper()` on the ASCII type names the schemas use. -/
def upperAscii (s : String) : String := String.mk (s.data.map Char.toUpper)

/-- The `type` entry of `Tool._convert_schema_for_gemini`: the type name
upper-cased; a present non-string `type` makes Python's `.upper()` raise,
embedded as `none`. -/
def geminiEntryType (kvs : List (String × Json)) :
    Option (List (String × Json)) :=
  match Json.lookup kvs "type" with
  | none => some []
  | some (.str s) => some [("type", Json.str (upperAscii s))]
  | some _ => none

/-- The `properties` entry of `Tool._convert_schema_for_gemini`: each
property value converted recursively (via `conv`); a present non-dict
`properties` makes Python's `.items()` raise, embedded as `none`. -/
def geminiEntryProps (conv : Json → Option Json)
    (kvs : List (String × Json)) : Option (List (String × Json)) :=
  match Json.lookup kvs "properties" with
  | none => some []
  | some (.obj props) =>
      (props.mapM fun kv => (conv kv.2).map fun w => (kv.1, w)).map
        fun ps => [("properties", Json.obj ps)]
  | some _ => none

/-- The `items` entry of `Tool._convert_schema_for_gemini`: converted
recursively. -/
def geminiEntryItems (conv : Json → Option Json)
    (kvs : List (String × Json)) : Option (List (String × Json)) :=
  match Json.lookup kvs "items" with
  | none => some []
  | some v => (conv v).map fun w => [("items", w)]

/-- `Tool._convert_schema_for_gemini` (`app/models/tools.py` lines 47-73):
keeps only `type` (upper-cased), `properties` (recursive), `required`,
`description`, `items` (recursive) and `enum`, in the code's insertion
order, dropping all other keys.  Python's unbounded recursion is embedded
with an explicit depth fuel: any fuel exceeding the schema's nesting
depth computes the Python result; `none` embeds both fuel exhaustion and
the Python raising cases (non-dict recursion target, non-string `type`,
non-dict `properties`). -/
def convert_schema_for_gemini : Nat → Json → Option Json
  | 0, _ => none
  | fuel + 1, .obj kvs => do
      let t ← geminiEntryType kvs
      let p ← geminiEntryProps (convert_schema_for_gemini fuel) kvs
      let i ← geminiEntryItems (convert_schema_for_gemini fuel) kvs
      some (.obj (t ++ p ++ geminiEntryVerbatim "required" kvs
        ++ geminiEntryVerbatim "description" kvs ++ i
        ++ geminiEntryVerbatim "enum" kvs))
  | _ + 1, _ => none

/-- `Tool.to_gemini_format` (`app/models/tools.py` lines 34-41): name and
description verbatim, parameters run through the schema converter. -/
def Tool.to_gemini_format (fuel : Nat) (t : Tool) :
    Option (String × String × Json) :=
  (convert_schema_for_gemini fuel (Json.obj t.parameters)).map fun p =>
    (t.name, t.description, p)

/-- Appending an entry whose key differs from `key` does not change a
lookup. -/
theorem Json.lookup_append_other (kvs : List (String × Json)) (k key : String)
    (v : Json) (h : k ≠ key) :
    Json.lookup (kvs ++ [(k, v)]) key = Json.lookup kvs key := by
  induction kvs with
  | nil => simp [Json.lookup, h]
  | cons kv rest ih => cases kv; simp [Json.lookup, ih]

/-- Keys produced by `geminiEntryVerbatim` are all `key`. -/
theorem geminiEntryVerbatim_keys (key : String) (kvs : List (String × Json)) :
    ∀ kv ∈ geminiEntryVerbatim key kvs, kv.1 = key := by
  unfold geminiEntryVerbatim
  split <;> simp

/-- Keys produced by `geminiEntryType` are all `"type"`. -/
theorem geminiEntryType_keys (kvs : List (String × Json))
    (t : List (String × Json)) (h : geminiEntryType kvs = some t) :
    ∀ kv ∈ t, kv.1 = "type" := by
  unfold geminiEntryType at h
  split at h
  · cases h; intro kv hkv; cases hkv
  · cases h; simp
  · cases h

/-- Keys produced by `geminiEntryProps` are all `"properties"`. -/
theorem geminiEntryProps_keys (conv : Json → Option Json)
    (kvs : List (String × Json)) (p : List (String × Json))
    (h : geminiEntryProps conv kvs = some p) :
    ∀ kv ∈ p, kv.1 = "properties" := by
  unfold geminiEntryProps at h
  split at h
  · cases h; simp
  · rcases Option.map_eq_some'.mp h with ⟨ps, -, rfl⟩
    simp
  · cases h

/-- Keys produced by `geminiEntryItems` are all `"items"`. -/
theorem geminiEntryItems_keys (conv : Json → Option Json)
    (kvs : List (String × Json)) (i : List (String × Json))
    (h : geminiEntryItems conv kvs = some i) :
    ∀ kv ∈ i, kv.1 = "items" := by
  unfold geminiEntryItems at h
  split at h
  · cases h; simp
  · rcases Option.map_eq_some'.mp h with ⟨w, -, rfl⟩
    simp

/-- A successful schema conversion of an object decomposes into the six
entry groups, in the code's insertion order. -/
theorem convert_schema_obj_decomp (fuel : Nat) (kvs : List (String × Json))
    (out : Json)
    (h : convert_schema_for_gemini (fuel + 1) (.obj kvs) = some out) :
    ∃ t p i, geminiEntryType kvs = some t
      ∧ geminiEntryProps (convert_schema_for_gemini fuel) kvs = some p
      ∧ geminiEntryItems (convert_schema_for_gemini fuel) kvs = some i
      ∧ out = .obj (t ++ p ++ geminiEntryVerbatim "required" kvs
          ++ geminiEntryVerbatim "description" kvs ++ i
          ++ geminiEntryVerbatim "enum" kvs) := by
  simp only [convert_schema_for_gemini, Option.bind_eq_some, bind,
    Option.some.injEq] at h
  obtain ⟨t, ht, p, hp, i, hi, hout⟩ := h
  exact ⟨t, p, i, ht, hp, hi, hout.symm⟩

/-- C7: translating a tool-parameter schema to the Gemini format
recursively retains only the keys `type` (value upper-cased),
`properties`, `required`, `description`, `items` and `enum`; appending an
entry under any other key to a schema never changes the result (unknown
keys are dropped, not errored); and the scenario schema
`{type: object, properties: {q: {type: string}}, required: [q]}`
translates to
`{type: OBJECT, properties: {q: {type: STRING}}, required: [q]}`. -/
theorem convertSchemaGemini_spec :
    (∀ (fuel : Nat) (kvs : List (String × Json)) (out : Json),
        convert_schema_for_gemini fuel (.obj kvs) = some out →
        ∃ entries, out = Json.obj entries
          ∧ ∀ kv ∈ entries,
              kv.1 ∈ (["type", "properties", "required", "description",
                "items", "enum"] : List String))
    ∧ (∀ (fuel : Nat) (kvs : List (String × Json)) (out : Json) (t : String),
        convert_schema_for_gemini fuel (.obj kvs) = some out →
        Json.lookup kvs "type" = some (.str t) →
        ∃ entries, out = Json.obj entries
          ∧ Json.lookup entries "type" = some (.str (upperAscii t)))
    ∧ (∀ (fuel : Nat) (kvs : List (String × Json)) (k : String) (v : Json),
        k ∉ (["type", "properties", "required", "description", "items",
          "enum"] : List String) →
        convert_schema_for_gemini fuel (.obj (kvs ++ [(k, v)]))
          = convert_schema_for_gemini fuel (.obj kvs))
    ∧ Tool.to_gemini_format 3
        ⟨"lookup", "", [("type", .str "object"),
          ("properties", .obj [("q", .obj [("type", .str "string")])]),
          ("required", .arr [.str "q"])]⟩
      = some ("lookup", "",
          Json.obj [("type", .str "OBJECT"),
            ("properties", .obj [("q", .obj [("type", .str "STRING")])]),
            ("required", .arr [.str "q"])]) := by
  refine ⟨?_, ?_, ?_, ?_⟩
  · intro fuel kvs out h
    cases fuel with
    | zero => simp [convert_schema_for_gemini] at h
    | succ fuel =>
        obtain ⟨t, p, i, ht, hp, hi, rfl⟩ :=
          convert_schema_obj_decomp fuel kvs out h
        refine ⟨_, rfl, ?_⟩
        intro kv hkv
        simp only [List.mem_append] at hkv
        rcases hkv with ((((hkv | hkv) | hkv) | hkv) | hkv) | hkv
        · simp [geminiEntryType_keys kvs t ht kv hkv]
        · simp [geminiEntryProps_keys _ kvs p hp kv hkv]
        · simp [geminiEntryVerbatim_keys "required" kvs kv hkv]
        · simp [geminiEntryVerbatim_keys "description" kvs kv hkv]
        · simp [geminiEntryItems_keys _ kvs i hi kv hkv]
        · simp [geminiEntryVerbatim_keys "enum" kvs kv hkv]
  · intro fuel kvs out t h hlk
    cases fuel with
    | zero => simp [convert_schema_for_gemini] at h
    | succ fuel =>
        obtain ⟨te, p, i, ht, hp, hi, rfl⟩ :=
          convert_schema_obj_decomp fuel kvs out h
        rw [geminiEntryType, hlk] at ht
        cases ht
        exact ⟨_, rfl, by simp [Json.lookup]⟩
  · intro fuel kvs k v hk
    simp only [List.mem_cons, List.not_mem_nil, or_false, not_or] at hk
    obtain ⟨hk1, hk2, hk3, hk4, hk5, hk6⟩ := hk
    cases fuel with
    | zero => rfl
    | succ fuel =>
        simp only [convert_schema_for_gemini, geminiEntryType,
          geminiEntryProps, geminiEntryItems, geminiEntryVerbatim,
          Json.lookup_append_other kvs k "type" v hk1,
          Json.lookup_append_other kvs k "properties" v hk2,
          Json.lookup_append_other kvs k "required" v hk3,
          Json.lookup_append_other kvs k "description" v hk4,
          Json.lookup_append_other kvs k "items" v hk5,
          Json.lookup_append_other kvs k "enum" v hk6]
  · rfl

/-- Witness for C7: the unknown key `title` appended to the scenario
schema is dropped, and the scenario translation itself. -/
theorem convertSchemaGemini_spec_witness :
    convert_schema_for_gemini 3
        (.obj ([("type", .str "object"),
          ("properties", .obj [("q", .obj [("type", .str "string")])]),
          ("required", .arr [.str "q"])] ++ [("title", .str "x")]))
      = convert_schema_for_gemini 3
        (.obj [("type", .str "object"),
          ("properties", .obj [("q", .obj [("type", .str "string")])]),
          ("required", .arr [.str "q"])])
    ∧ Tool.to_gemini_format 3
        ⟨"lookup", "", [("type", .str "object"),
          ("properties", .obj [("q", .obj [("type", .str "string")])]),
          ("required", .arr [.str "q"])]⟩
      = some ("lookup", "",
          Json.obj [("type", .str "OBJECT"),
            ("properties", .obj [("q", .obj [("type", .str "STRING")])]),
            ("required", .arr [.str "q"])]) :=
  ⟨convertSchemaGemini_spec.2.2.1 3
      [("type", .str "object"),
        ("properties", .obj [("q", .obj [("type", .str "string")])]),
        ("required", .arr [.str "q"])] "title" (.str "x") (by decide),
   convertSchemaGemini_spec.2.2.2⟩

/-! ## Gemini message translation (`app/models/llm.py`,
`app/providers/gemini.py`) -/

/-- One entry of a Gemini message's `parts` list as built by
`ChatMessage.to_gemini_format`. -/
inductive GPart where
  | text (s : String)
  | functionCall (name : String) (args : List (String × Json))
  | functionResponse (name : String) (result : String)

/-- A Gemini-format message `{role, parts}`. -/
structure GMessage where
  role : String
  parts : List GPart

/-- `ChatMessage.to_gemini_format` (`app/models/llm.py` lines 109-138). -/
def ChatMessage.to_gemini_format (m : ChatMessage) : GMessage :=
  if m.role = .system then
    ⟨"user", [.text ("[System]: " ++ m.content)]⟩
  else if m.role = .tool then
    ⟨"function",
      [.functionResponse
        (match m.name with
          | some s => if s.isEmpty then "unknown" else s
          | none => "unknown")
        m.content]⟩
  else if m.role = .assistant && !m.tool_calls.isEmpty then
    ⟨"model",
      (if m.content.isEmpty then [] else [.text m.content])
        ++ m.tool_calls.map fun tc => .functionCall tc.name tc.arguments⟩
  else
    ⟨if m.role = .assistant then "model" else "user", [.text m.content]⟩

/-- `GeminiProvider._convert_messages` (`app/providers/gemini.py` lines
34-47): system-role messages are pulled out of the list (each one
overwriting the carried system instruction), every other message is
translated with `to_gemini_format`. -/
def gemini_convert_messages (messages : List ChatMessage)
    (system_prompt : Option String) : Option String × List GMessage :=
  messages.foldl
    (fun acc msg =>
      if msg.role = .system then (some msg.content, acc.2)
      else (acc.1, acc.2 ++ [msg.to_gemini_format]))
    (system_prompt, [])

/-- C6 counterexample: translating the scenario list
`[system "Be terse.", user "hi"]` for the parts-based vendor goes through
`GeminiProvider._convert_messages`, which extracts the system text into a
separate system-instruction value; the translated message list is the
single user part `"hi"` — not a synthesized `"[System]: Be terse."` user
part followed by `"hi"`. -/
theorem geminiConvertMessages_scenario_refuted :
    gemini_convert_messages
        [{ role := .system, content := "Be terse." },
         { role := .user, content := "hi" }] none
      = (some "Be terse.", [⟨"user", [GPart.text "hi"]⟩])
    ∧ (gemini_convert_messages
        [{ role := .system, content := "Be terse." },
         { role := .user, content := "hi" }] none).2
      ≠ [⟨"user", [GPart.text "[System]: Be terse."]⟩,
         ⟨"user", [GPart.text "hi"]⟩] := by
  refine ⟨rfl, fun h => ?_⟩
  rw [show (gemini_convert_messages
      [{ role := .system, content := "Be terse." },
       { role := .user, content := "hi" }] none).2
    = [⟨"user", [GPart.text "hi"]⟩] from rfl] at h
  exact absurd (congrArg List.length h) (by decide)

/-- C6 amended: for the parts-based vendor the list translation
(`GeminiProvider._convert_messages`) does not fold system text into any
user message: it drops every system-role message from the translated list
(whose entries are the per-message translations of the non-system
messages, in order) and carries the last system message's content as a
separate system-instruction value (falling back to the explicit system
prompt); the `"[System]: "` prefix exists only in the per-message
converter `ChatMessage.to_gemini_format`, which turns a system message
into a standalone synthesized user message, not into an existing one. -/
theorem geminiConvertMessages_system_extraction
    (messages : List ChatMessage) (system_prompt : Option String) :
    (gemini_convert_messages messages system_prompt).2
      = (messages.filter fun m => !(m.role = .system)).map
          ChatMessage.to_gemini_format
    ∧ (gemini_convert_messages messages system_prompt).1
      = (match messages.reverse.find? (fun m => m.role = .system) with
         | some m => some m.content
         | none => system_prompt)
    ∧ (∀ (content : String) (tcs : List ToolCall) (tcid nm : Option String),
        ChatMessage.to_gemini_format ⟨.system, content, tcs, tcid, nm⟩
          = ⟨"user", [GPart.text ("[System]: " ++ content)]⟩) := by
  refine ⟨?_, ?_, fun content tcs tcid nm => rfl⟩
  · suffices h : ∀ (s : Option String) (acc : List GMessage),
        (messages.foldl
          (fun acc msg =>
            if msg.role = .system then (some msg.content, acc.2)
            else (acc.1, acc.2 ++ [msg.to_gemini_format]))
          (s, acc)).2
        = acc ++ (messages.filter fun m => !(m.role = .system)).map
            ChatMessage.to_gemini_format by
      simpa using h system_prompt []
    induction messages with
    | nil => intro s acc; simp
    | cons m rest ih =>
        intro s acc
        by_cases hm : m.role = .system
        · simp [List.foldl_cons, hm, ih]
        · simp [List.foldl_cons, hm, ih, List.append_assoc]
  · suffices h : ∀ (s : Option String) (acc : List GMessage),
        (messages.foldl
          (fun acc msg =>
            if msg.role = .system then (some msg.content, acc.2)
            else (acc.1, acc.2 ++ [msg.to_gemini_format]))
          (s, acc)).1
        = (match messages.reverse.find? (fun m => m.role = .system) with
           | some m => some m.content
           | none => s) by
      simpa using h system_prompt []
    induction messages with
    | nil => intro s acc; simp
    | cons m rest ih =>
        intro s acc
        rw [List.foldl_cons]
        by_cases hm : m.role = .system
        · rw [if_pos hm, ih]
          rw [List.reverse_cons, List.find?_append]
          cases hfind : rest.reverse.find? (fun m => m.role = .system) with
          | some m' => simp [hfind]
          | none => simp [hfind, List.find?, hm]
        · rw [if_neg hm, ih]
          rw [List.reverse_cons, List.find?_append]
          cases hfind : rest.reverse.find? (fun m => m.role = .system) with
          | some m' => simp [hfind]
          | none => simp [hfind, List.find?, hm]

/-! ## Provider registry (`app/providers/registry.py`, `app/config.py`) -/

/-- `app/config.py` `LLMProvider`. -/
inductive LLMProvider where
  | anthropic
  | openai
  | gemini
  | ollama
deriving DecidableEq

/-- `LLMProvider.value` (the enum's string value). -/
def LLMProvider.value : LLMProvider → String
  | .anthropic => "anthropic"
  | .openai => "openai"
  | .gemini => "gemini"
  | .ollama => "ollama"

/-- The credential fields of `Settings` that decide provider
availability (`app/config.py`): `None` embeds an unset key. -/
structure SettingsKeys where
  anthropic_api_key : Option String := none
  openai_api_key : Option String := none
  gemini_api_key : Option String := none

/-- Python truthiness of an optional credential string. -/
def keyTruthy : Option String → Bool
  | none => false
  | some s => !s.isEmpty

/-- `Settings.get_available_providers` (`app/config.py` lines 165-179):
providers with a truthy api key, in the fixed order anthropic, openai,
gemini, then always ollama. -/
def get_available_providers (s : SettingsKeys) : List LLMProvider :=
  (if keyTruthy s.anthropic_api_key then [LLMProvider.anthropic] else [])
    ++ (if keyTruthy s.openai_api_key then [LLMProvider.openai] else [])
    ++ (if keyTruthy s.gemini_api_key then [LLMProvider.gemini] else [])
    ++ [LLMProvider.ollama]

/-- Outcome of one candidate attempt inside
`ProviderRegistry.get_healthy_provider`'s try-block
(`get_or_create_provider` + `health_check`): `healthy` returns the
instance, `unhealthy` is a `False` probe, `raised` is any exception
(caught and skipped). -/
inductive HealthOutcome where
  | healthy
  | unhealthy
  | raised
deriving DecidableEq

/-- The default `fallback_order` of
`ProviderRegistry.get_healthy_provider` (lines 144-150). -/
def defaultFallbackOrder : List LLMProvider :=
  [.anthropic, .openai, .gemini, .ollama]

/-- The `providers_to_try` list of `ProviderRegistry.get_healthy_provider`
(lines 152-160): preferred first when available, then each fallback
provider that is available and not yet listed. -/
def providersToTry (available : List LLMProvider)
    (preferred : Option LLMProvider) (fallback : List LLMProvider) :
    List LLMProvider :=
  let init :=
    match preferred with
    | some p => if available.contains p then [p] else []
    | none => []
  fallback.foldl
    (fun acc p =>
      if available.contains p && !acc.contains p then acc ++ [p] else acc)
    init

/-- The probe loop of `ProviderRegistry.get_healthy_provider` (lines
162-181): sequential attempts, first healthy candidate wins, error when
the candidate list is exhausted.  Returns the result together with the
list of candidates attempted, in order. -/
def probeProviders (health : LLMProvider → HealthOutcome) :
    List LLMProvider → Except String LLMProvider × List LLMProvider
  | [] => (.error "No healthy LLM provider available", [])
  | p :: rest =>
      match health p with
      | .healthy => (.ok p, [p])
      | _ =>
          let r := probeProviders health rest
          (r.1, p :: r.2)

/-- `ProviderRegistry.get_healthy_provider` (lines 124-181), with the
configured credentials and the per-candidate construction/probe outcome
abstracted as oracles. -/
def get_healthy_provider (settings : SettingsKeys)
    (health : LLMProvider → HealthOutcome)
    (preferred : Option LLMProvider)
    (fallback_order : Option (List LLMProvider)) :
    Except String LLMProvider × List LLMProvider :=
  probeProviders health
    (providersToTry (get_available_providers settings) preferred
      (fallback_order.getD defaultFallbackOrder))

/-- The probe loop returns the first healthy candidate and attempts
exactly the candidates up to and including it. -/
theorem probeProviders_first_healthy (health : LLMProvider → HealthOutcome) :
    ∀ (l : List LLMProvider) (i : Nat) (p : LLMProvider),
    l[i]? = some p → health p = .healthy →
    (∀ (j : Nat) (q : LLMProvider), j < i → l[j]? = some q →
      health q ≠ .healthy) →
    probeProviders health l = (.ok p, l.take (i + 1)) := by
  intro l
  induction l with
  | nil => intro i p hp; simp at hp
  | cons hd rest ih =>
      intro i p hp hh hbefore
      cases i with
      | zero =>
          simp only [List.getElem?_cons_zero, Option.some.injEq] at hp
          subst hp
          simp [probeProviders, hh]
      | succ i =>
          have hhd : health hd ≠ .healthy :=
            hbefore 0 hd (Nat.succ_pos i) (by simp)
          have hrest := ih i p (by simpa using hp) hh
            (fun j q hj hq =>
              hbefore (j + 1) q (Nat.succ_lt_succ hj) (by simpa using hq))
          cases hout : health hd with
          | healthy => exact absurd hout hhd
          | unhealthy => simp [probeProviders, hout, hrest]
          | raised => simp [probeProviders, hout, hrest]

/-- When no candidate is healthy the probe loop attempts every candidate
and fails with the no-healthy-provider error. -/
theorem probeProviders_exhausted (health : LLMProvider → HealthOutcome) :
    ∀ l : List LLMProvider, (∀ p ∈ l, health p ≠ .healthy) →
    probeProviders health l
      = (.error "No healthy LLM provider available", l) := by
  intro l
  induction l with
  | nil => intro _; rfl
  | cons hd rest ih =>
      intro h
      have hhd : health hd ≠ .healthy := h hd (List.mem_cons_self hd rest)
      have hrest := ih fun p hp => h p (List.mem_cons_of_mem hd hp)
      cases hout : health hd with
      | healthy => exact absurd hout hhd
      | unhealthy => simp [probeProviders, hout, hrest]
      | raised => simp [probeProviders, hout, hrest]

/-- The dedup-append fold of `providersToTry` is a plain filter once the
fallback order has no duplicates. -/
theorem providersToTry_eq_filter (available : List LLMProvider) :
    ∀ (fallback init : List LLMProvider), fallback.Nodup →
    fallback.foldl
        (fun acc p =>
          if available.contains p && !acc.contains p then acc ++ [p]
          else acc)
        init
      = init ++ fallback.filter
          (fun p => available.contains p && !init.contains p) := by
  intro fallback
  induction fallback with
  | nil => intro init _; simp
  | cons hd rest ih =>
      intro init hnd
      obtain ⟨hhd, hrest⟩ := List.nodup_cons.mp hnd
      rw [List.foldl_cons]
      by_cases hc : available.contains hd && !init.contains hd
      · rw [if_pos hc, ih (init ++ [hd]) hrest]
        have hfilter : rest.filter
              (fun p => available.contains p && !(init ++ [hd]).contains p)
            = rest.filter
              (fun p => available.contains p && !init.contains p) := by
          apply List.filter_congr
          intro q hq
          have hqhd : q ≠ hd := fun h => hhd (h ▸ hq)
          simp [List.contains, List.elem_eq_mem, List.mem_append, hqhd]
        rw [hfilter, List.filter_cons, if_pos hc]
        simp
      · rw [if_neg hc, ih init hrest, List.filter_cons, if_neg hc]

/-- C3: `get_healthy_provider` probes the candidate list — preferred
first when available, then the fallback order filtered to available
not-yet-tried providers — sequentially: it returns the first candidate
whose probe succeeds having attempted exactly the candidates up to it
(no later candidate is probed), and fails with the no-healthy-provider
error exactly when every candidate's probe is unhealthy or raises. -/
theorem getHealthyProvider_sequential_fallback
    (settings : SettingsKeys) (health : LLMProvider → HealthOutcome)
    (preferred : Option LLMProvider)
    (fallback_order : Option (List LLMProvider)) :
    (∀ fb, fallback_order = some fb → fb.Nodup →
      providersToTry (get_available_providers settings) preferred fb
        = (match preferred with
           | some p =>
              if (get_available_providers settings).contains p then [p]
              else []
           | none => [])
          ++ fb.filter (fun p =>
              (get_available_providers settings).contains p
              && !(match preferred with
                   | some p0 =>
                      if (get_available_providers settings).contains p0
                      then [p0] else []
                   | none => []).contains p))
    ∧ (∀ (i : Nat) (p : LLMProvider),
        (providersToTry (get_available_providers settings) preferred
          (fallback_order.getD defaultFallbackOrder))[i]? = some p →
        health p = .healthy →
        (∀ (j : Nat) (q : LLMProvider), j < i →
          (providersToTry (get_available_providers settings) preferred
            (fallback_order.getD defaultFallbackOrder))[j]? = some q →
          health q ≠ .healthy) →
        get_healthy_provider settings health preferred fallback_order
          = (.ok p, (providersToTry (get_available_providers settings)
              preferred (fallback_order.getD defaultFallbackOrder)).take
                (i + 1)))
    ∧ ((∀ p ∈ providersToTry (get_available_providers settings) preferred
          (fallback_order.getD defaultFallbackOrder),
          health p ≠ .healthy) →
        get_healthy_provider settings health preferred fallback_order
          = (.error "No healthy LLM provider available",
              providersToTry (get_available_providers settings) preferred
                (fallback_order.getD defaultFallbackOrder))) := by
  refine ⟨?_, ?_, ?_⟩
  · intro fb hfb hnd
    subst hfb
    exact providersToTry_eq_filter (get_available_providers settings)
      fb _ hnd
  · intro i p hp hh hbefore
    exact probeProviders_first_healthy health _ i p hp hh hbefore
  · intro h
    exact probeProviders_exhausted health _ h

/-- Witness for C3, the spec's scenario: preferred anthropic unhealthy,
fallback order `[anthropic, openai, ollama]`, openai healthy — the
openai instance is returned and ollama (though healthy) is never
attempted. -/
theorem getHealthyProvider_sequential_fallback_witness :
    get_healthy_provider ⟨some "k", some "k", some "k"⟩
        (fun p => if p = .openai then .healthy
          else if p = .anthropic then .unhealthy else .healthy)
        (some .anthropic) (some [.anthropic, .openai, .ollama])
      = (.ok .openai, [.anthropic, .openai]) :=
  (getHealthyProvider_sequential_fallback ⟨some "k", some "k", some "k"⟩
      (fun p => if p = .openai then .healthy
        else if p = .anthropic then .unhealthy else .healthy)
      (some .anthropic) (some [.anthropic, .openai, .ollama])).2.1
    1 .openai (by decide) (by decide)
    (fun j q hj hq => by
      have hj0 : j = 0 := Nat.lt_one_iff.mp hj
      subst hj0
      revert hq
      cases q <;> decide)

/-! ## Registry instance cache (`app/providers/registry.py`,
`app/services/llm_service.py`) -/

/-- A constructed provider instance: `iid` is the Python object identity
(allocation order), `kind` the class's `provider_name`, `model` the
`model` attribute set by `BaseLLMProvider.__init__` (which may be `None`
when an explicit `model=None` keyword reaches the constructor). -/
structure Instance where
  iid : Nat
  kind : LLMProvider
  model : Option String
deriving DecidableEq

/-- The mutable registry state: `ProviderRegistry._instances` (cache keys
are unique, first-binding lookup) plus an allocation counter giving each
new instance a fresh identity. -/
structure RegState where
  cache : List (String × Instance)
  nextId : Nat

/-- Cache lookup (`key in cls._instances` / `cls._instances[key]`). -/
def cacheLookup (cache : List (String × Instance)) (key : String) :
    Option Instance :=
  match cache with
  | [] => none
  | (k, v) :: rest => if k = key then some v else cacheLookup rest key

/-- `ProviderRegistry.create_provider` (lines 36-89), restricted to the
`model` keyword (the only override the orchestration engine passes).
`cfgModel` is `Settings.get_provider_config(provider).model`, always a
set string; `modelKwarg = none` means no `model` keyword, while
`modelKwarg = some m` means an explicit `model=m` keyword (`m = none`
embedding Python `model=None`), which `provider_kwargs.update(kwargs)`
lets override the configured model. -/
def create_provider (cfgModel : LLMProvider → String) (kind : LLMProvider)
    (modelKwarg : Option (Option String)) (s : RegState) :
    Instance × RegState :=
  let model : Option String :=
    match modelKwarg with
    | none => some (cfgModel kind)
    | some override => override
  (⟨s.nextId, kind, model⟩, ⟨s.cache, s.nextId + 1⟩)

/-- `ProviderRegistry.get_or_create_provider` (lines 91-116): cache keyed
by `cache_key or provider.value` (Python `or`: an empty-string cache key
falls back to the provider name); on a miss the freshly created instance
is installed in the cache. -/
def get_or_create_provider (cfgModel : LLMProvider → String)
    (kind : LLMProvider) (cache_key : Option String)
    (modelKwarg : Option (Option String)) (s : RegState) :
    Instance × RegState :=
  let key :=
    match cache_key with
    | some k => if k.isEmpty then kind.value else k
    | none => kind.value
  match cacheLookup s.cache key with
  | some inst => (inst, s)
  | none =>
      let c := create_provider cfgModel kind modelKwarg s
      (c.1, ⟨c.2.cache ++ [(key, c.1)], c.2.nextId⟩)

/-- `LLMService._get_provider` (`app/services/llm_service.py` lines
30-51): with a provider name it calls `get_or_create_provider(name,
model=model)` (passing the model keyword even when it is `None`); without
one it resolves the configured default via `get_provider()` (no keyword
overrides); afterwards, if a truthy model override disagrees with the
resolved instance's model, a fresh un-cached instance is created. -/
def llm_get_provider (cfgModel : LLMProvider → String)
    (defaultProvider : LLMProvider) (provider_name : Option LLMProvider)
    (model : Option String) (s : RegState) : Instance × RegState :=
  let r :=
    match provider_name with
    | some p => get_or_create_provider cfgModel p none (some model) s
    | none => get_or_create_provider cfgModel defaultProvider none none s
  match model with
  | some m =>
      if !m.isEmpty ∧ r.1.model ≠ some m then
        create_provider cfgModel r.1.kind (some (some m)) r.2
      else r
  | none => r

/-- A key absent from the cache finds the entry appended for it. -/
theorem cacheLookup_append_self (cache : List (String × Instance))
    (key : String) (v : Instance) (h : cacheLookup cache key = none) :
    cacheLookup (cache ++ [(key, v)]) key = some v := by
  induction cache with
  | nil => simp [cacheLookup]
  | cons kv rest ih =>
      cases kv with
      | mk k w =>
          by_cases hk : k = key
          · simp [cacheLookup, hk] at h
          · simp only [cacheLookup, hk, if_neg hk, List.cons_append] at h ⊢
            exact ih h

/-- C8: a second `get_or_create_provider` call with the same provider
kind, cache key and keyword arguments returns the identity-equal cached
instance and leaves the registry state untouched (nothing new is
constructed), while `create_provider` always returns a fresh instance —
its identity is the allocation counter, distinct from every instance
allocated before (in particular every cached one), and the counter is
advanced so later creations are fresh as well. -/
theorem getOrCreate_idempotent_createProvider_fresh
    (cfgModel : LLMProvider → String) (kind : LLMProvider)
    (cache_key : Option String) (modelKwarg : Option (Option String))
    (s : RegState) :
    get_or_create_provider cfgModel kind cache_key modelKwarg
        (get_or_create_provider cfgModel kind cache_key modelKwarg s).2
      = get_or_create_provider cfgModel kind cache_key modelKwarg s
    ∧ (create_provider cfgModel kind modelKwarg s).1.iid = s.nextId
    ∧ (∀ inst : Instance, inst.iid < s.nextId →
        (create_provider cfgModel kind modelKwarg s).1 ≠ inst)
    ∧ ((∀ key inst, cacheLookup s.cache key = some inst →
          inst.iid < s.nextId) →
        ∀ key inst, cacheLookup s.cache key = some inst →
          (create_provider cfgModel kind modelKwarg s).1 ≠ inst)
    ∧ (create_provider cfgModel kind modelKwarg s).2.nextId
        = s.nextId + 1 := by
  refine ⟨?_, rfl, ?_, ?_, rfl⟩
  · unfold get_or_create_provider
    cases hl : cacheLookup s.cache
        (match cache_key with
          | some k => if k.isEmpty then kind.value else k
          | none => kind.value) with
    | some inst => simp [hl]
    | none =>
        simp only [hl, create_provider]
        rw [cacheLookup_append_self _ _ _ hl]
  · intro inst hlt heq
    have : s.nextId = inst.iid := congrArg Instance.iid heq
    omega
  · intro hwf key inst hlk heq
    have hlt := hwf key inst hlk
    have : s.nextId = inst.iid := congrArg Instance.iid heq
    omega

/-- Witness for C8: concrete repeated `get_or_create_provider` on an
empty registry, and freshness of `create_provider` against a cached
instance. -/
theorem getOrCreate_idempotent_createProvider_fresh_witness :
    get_or_create_provider (fun _ => "m1") .anthropic none none
        (get_or_create_provider (fun _ => "m1") .anthropic none none
          ⟨[], 0⟩).2
      = get_or_create_provider (fun _ => "m1") .anthropic none none
          ⟨[], 0⟩
    ∧ (∀ key inst,
        cacheLookup (⟨[("anthropic", ⟨0, .anthropic, some "m1"⟩)], 1⟩ :
          RegState).cache key = some inst →
        (create_provider (fun _ => "m1") .anthropic none
          ⟨[("anthropic", ⟨0, .anthropic, some "m1"⟩)], 1⟩).1 ≠ inst) :=
  ⟨(getOrCreate_idempotent_createProvider_fresh (fun _ => "m1") .anthropic
      none none ⟨[], 0⟩).1,
   (getOrCreate_idempotent_createProvider_fresh (fun _ => "m1") .anthropic
      none none ⟨[("anthropic", ⟨0, .anthropic, some "m1"⟩)], 1⟩).2.2.2.1
     (by
       intro key inst hlk
       revert hlk
       unfold cacheLookup
       split
       · intro h; cases h; decide
       · intro h; cases h)⟩

/-- C4 (code bug, evaluated at the failing input): resolving provider
`anthropic` with model override `"m2"` against an empty registry cache
(configured model `"m1"`) does not produce an un-cached fresh instance —
`_get_provider` forwards the model keyword into
`get_or_create_provider`, which constructs the instance with the
overridden model and installs it in the registry cache under the plain
key `"anthropic"`; the returned instance is that cached entry, and the
allocation counter shows no second (fresh) construction happened. -/
theorem modelOverride_pollutes_cache :
    (llm_get_provider (fun _ => "m1") .anthropic (some .anthropic)
        (some "m2") ⟨[], 0⟩).1
      = ⟨0, .anthropic, some "m2"⟩
    ∧ cacheLookup (llm_get_provider (fun _ => "m1") .anthropic
        (some .anthropic) (some "m2") ⟨[], 0⟩).2.cache "anthropic"
      = some ⟨0, .anthropic, some "m2"⟩
    ∧ (llm_get_provider (fun _ => "m1") .anthropic (some .anthropic)
        (some "m2") ⟨[], 0⟩).2.nextId = 1 := by
  refine ⟨by decide, by decide, by decide⟩

/-! ## Orchestration engine (`app/services/llm_service.py`) -/

/-- `LLMService._build_messages` (lines 53-91) as called by `chat` and
`stream` (which never pass `tool_results`): history entries become
role/content messages, then the current user message is appended. -/
def build_messages (user_message : String)
    (history : List (MessageRole × String)) : List ChatMessage :=
  history.map (fun h => ⟨h.1, h.2, [], none, none⟩)
    ++ [⟨.user, user_message, [], none, none⟩]

/-- Tool execution inside the engine loops (lines 180-191 and 300-310):
with an MCP service present the gateway's `execute_tools` runs
(abstracted here as the function carried by `mcp`); without one every
call becomes a "Tool execution not available" error result. -/
def toolResultsFor (mcp : Option (List ToolCall → List ToolResult))
    (tcs : List ToolCall) : List ToolResult :=
  match mcp with
  | some exec => exec tcs
  | none => tcs.map fun tc => ⟨tc.id, "Tool execution not available", true⟩

/-- The assistant message appended for a tool-call response
(`chat` lines 170-177). -/
def assistantToolMsg (response : LLMResponse) : ChatMessage :=
  ⟨.assistant, response.content, response.tool_calls, none, none⟩

/-- The tool-role message appended per tool result (lines 193-201 and
312-320). -/
def toolResultMsg (r : ToolResult) : ChatMessage :=
  ⟨.tool, r.content, [], some r.tool_call_id, none⟩

/-- Termination of one `LLMService.chat` call: `ok` is a normal return
(with the number of provider round-trips made and the message context at
return), `raisedMaxIterations` is the `LLMError` raised at line 208 when
the `while` bound is exhausted. -/
inductive ChatOutcome where
  | ok (response : LLMResponse) (round_trips : Nat) (msgs : List ChatMessage)
  | raisedMaxIterations (round_trips : Nat) (msgs : List ChatMessage)

/-- The `while iterations < self._max_tool_iterations` loop of
`LLMService.chat` (lines 142-208), with the provider's `chat` abstracted
as a deterministic oracle over the message context.  `fuel` is the
number of loop iterations still allowed, `round_trips` the provider
calls made so far. -/
def chat_loop (provider : List ChatMessage → LLMResponse)
    (mcp : Option (List ToolCall → List ToolResult)) :
    Nat → List ChatMessage → Nat → ChatOutcome
  | 0, msgs, round_trips => .raisedMaxIterations round_trips msgs
  | fuel + 1, msgs, round_trips =>
      let response := provider msgs
      if response.tool_calls.isEmpty
          ∨ response.finish_reason ≠ "tool_calls" then
        .ok response (round_trips + 1) msgs
      else
        chat_loop provider mcp fuel
          (msgs ++ assistantToolMsg response
            :: (toolResultsFor mcp response.tool_calls).map toolResultMsg)
          (round_trips + 1)

/-- `LLMService.chat` (lines 93-208): build the context, then run the
tool loop with the configured iteration bound. -/
def chat (provider : List ChatMessage → LLMResponse)
    (mcp : Option (List ToolCall → List ToolResult))
    (max_tool_iterations : Nat) (message : String)
    (history : List (MessageRole × String)) : ChatOutcome :=
  chat_loop provider mcp max_tool_iterations
    (build_messages message history) 0

/-- The context growth of one tool round of `chat_loop`: the assistant
tool-call message followed by one tool message per result. -/
def chatStep (provider : List ChatMessage → LLMResponse)
    (mcp : Option (List ToolCall → List ToolResult))
    (msgs : List ChatMessage) : List ChatMessage :=
  msgs ++ assistantToolMsg (provider msgs)
    :: (toolResultsFor mcp (provider msgs).tool_calls).map toolResultMsg

/-- C1: with a positive iteration bound N and a provider that always
answers with a non-empty tool-call list and finish_reason "tool_calls",
`chat` raises the max-tool-iterations error after exactly N provider
round-trips — the final context is N applications of the per-round step,
each appending one assistant tool-call message plus one tool-result
message per ToolCall of that round (given that tool execution returns
one result per call, which both the gateway and the no-MCP fallback do). -/
theorem chat_max_iterations_exact (N : Nat) (_hN : 0 < N)
    (provider : List ChatMessage → LLMResponse)
    (mcp : Option (List ToolCall → List ToolResult))
    (message : String) (history : List (MessageRole × String))
    (hp : ∀ msgs, (provider msgs).tool_calls ≠ []
        ∧ (provider msgs).finish_reason = "tool_calls")
    (hlen : ∀ tcs, (toolResultsFor mcp tcs).length = tcs.length) :
    chat provider mcp N message history
      = .raisedMaxIterations N
          ((chatStep provider mcp)^[N] (build_messages message history))
    ∧ ∀ msgs, (chatStep provider mcp msgs).length
        = msgs.length + 1 + (provider msgs).tool_calls.length := by
  constructor
  · have key : ∀ (fuel : Nat) (msgs : List ChatMessage) (rt : Nat),
        chat_loop provider mcp fuel msgs rt
          = .raisedMaxIterations (rt + fuel)
              ((chatStep provider mcp)^[fuel] msgs) := by
      intro fuel
      induction fuel with
      | zero => intro msgs rt; simp [chat_loop]
      | succ fuel ih =>
          intro msgs rt
          have hne : ¬((provider msgs).tool_calls.isEmpty
              ∨ (provider msgs).finish_reason ≠ "tool_calls") := by
            rcases hp msgs with ⟨h1, h2⟩
            rw [not_or]
            exact ⟨by simpa [List.isEmpty_iff] using h1, by simp [h2]⟩
          rw [chat_loop, if_neg hne, ih]
          rw [Function.iterate_succ_apply]
          congr 1
          omega
    simpa [chat] using key N (build_messages message history) 0
  · intro msgs
    simp [chatStep, hlen]
    omega

/-- Witness for C1: a constant tool-calling provider, no MCP service,
bound 2. -/
theorem chat_max_iterations_exact_witness :
    chat (fun _ => ⟨"", [⟨"c1", "t", []⟩], "tool_calls", "", ""⟩) none 2
        "hi" []
      = .raisedMaxIterations 2
          ((chatStep (fun _ => ⟨"", [⟨"c1", "t", []⟩], "tool_calls", "", ""⟩)
              none)^[2] (build_messages "hi" [])) :=
  (chat_max_iterations_exact 2 (by decide)
      (fun _ => ⟨"", [⟨"c1", "t", []⟩], "tool_calls", "", ""⟩) none "hi" []
      (fun _ => ⟨List.cons_ne_nil _ _, rfl⟩)
      (fun tcs => List.length_map _ _)).1

/-- Per-round state of `LLMService.stream`'s inner `async for` (lines
261-281): chunks yielded to the caller so far, `accumulated_content`,
`accumulated_tool_calls`, and whether the generator executed the
`return` at line 281. -/
structure RoundState where
  emitted : List StreamChunk
  accContent : String
  accCalls : List ToolCall
  returned : Bool

/-- The inner `async for` of `LLMService.stream` over one provider chunk
sequence: content-bearing chunks are forwarded (and accumulated),
tool-call fragments are buffered, and a `done` chunk with no buffered
tool calls or a non-"tool_calls" finish reason is forwarded, ending the
generator. -/
def process_round (chunks : List StreamChunk) (acc : String)
    (tcs : List ToolCall) : RoundState :=
  match chunks with
  | [] => ⟨[], acc, tcs, false⟩
  | c :: rest =>
      let contentEmit := if strTruthy c.content then [c] else []
      let acc' := if strTruthy c.content then acc ++ c.content.getD ""
        else acc
      let tcs' := tcs ++ c.tool_calls
      if c.done ∧ (tcs'.isEmpty ∨ c.finish_reason ≠ some "tool_calls") then
        ⟨contentEmit ++ [c], acc', tcs', true⟩
      else
        let r := process_round rest acc' tcs'
        ⟨contentEmit ++ r.emitted, r.accContent, r.accCalls, r.returned⟩

/-- How a `LLMService.stream` generator run can end.  The loop itself
only ever produces the first three; `raised` (an exception escaping the
generator) is included so that the spec's claimed failure mode is
expressible — the streaming loop, unlike `chat`, has no `raise`. -/
inductive StreamTermination where
  | returned
  | roundBreak
  | maxIterations
  | raised (msg : String)
deriving DecidableEq

/-- The synthetic marker chunk yielded after each round's tool execution
(`LLMService.stream` line 323). -/
def markerChunk : StreamChunk :=
  ⟨some "\n\n[Processing tool results...]\n\n", [], false, none⟩

/-- The assistant message appended for a streamed tool-call round
(lines 291-297). -/
def streamAssistantMsg (content : String) (tcs : List ToolCall) :
    ChatMessage :=
  ⟨.assistant, content, tcs, none, none⟩

/-- The `while iterations < self._max_tool_iterations` loop of
`LLMService.stream` (lines 256-328), with the provider's chunk sequence
abstracted as an oracle over the message context.  Returns every chunk
yielded to the caller plus how the generator ended; exhausting the bound
(`maxIterations`) only logs a warning — no exception is raised. -/
def stream_loop (providerStream : List ChatMessage → List StreamChunk)
    (mcp : Option (List ToolCall → List ToolResult)) :
    Nat → List ChatMessage → List StreamChunk × StreamTermination
  | 0, _ => ([], .maxIterations)
  | fuel + 1, msgs =>
      let r := process_round (providerStream msgs) "" []
      if r.returned then (r.emitted, .returned)
      else if r.accCalls.isEmpty then (r.emitted, .roundBreak)
      else
        let rest := stream_loop providerStream mcp fuel
          (msgs ++ streamAssistantMsg r.accContent r.accCalls
            :: (toolResultsFor mcp r.accCalls).map toolResultMsg)
        (r.emitted ++ markerChunk :: rest.1, rest.2)

/-- Ghost trace of `stream_loop` under always-tool-call rounds: each
round's forwarded chunks followed by the synthetic marker. -/
def stream_trace (providerStream : List ChatMessage → List StreamChunk)
    (mcp : Option (List ToolCall → List ToolResult)) :
    Nat → List ChatMessage → List StreamChunk
  | 0, _ => []
  | n + 1, msgs =>
      let r := process_round (providerStream msgs) "" []
      r.emitted ++ markerChunk
        :: stream_trace providerStream mcp n
          (msgs ++ streamAssistantMsg r.accContent r.accCalls
            :: (toolResultsFor mcp r.accCalls).map toolResultMsg)

/-- C5 counterexample: with bound N = 1 and a provider stream that
always delivers a tool-call chunk and a terminal chunk with
finish_reason "tool_calls", the streaming loop ends with the
max-iterations warning — a normal end of the generator — and not by
raising the max-tool-iterations error that `chat` raises. -/
theorem stream_max_iterations_not_raised :
    (stream_loop (fun _ => [⟨none, [⟨"c1", "t", []⟩], false, none⟩,
        ⟨none, [], true, some "tool_calls"⟩]) none 1 []).2
      = .maxIterations
    ∧ (stream_loop (fun _ => [⟨none, [⟨"c1", "t", []⟩], false, none⟩,
        ⟨none, [], true, some "tool_calls"⟩]) none 1 []).2
      ≠ .raised "Max tool iterations (1) reached" := by
  exact ⟨by decide, by decide⟩

/-- C5 amended: with a positive bound N and a provider stream whose
rounds always buffer tool calls without triggering the generator's early
return, the streaming loop performs N rounds — each emitting its
forwarded chunks followed by the synthetic "processing tool results"
marker after tool execution — and then ends the stream normally with
only a logged warning (`maxIterations`); unlike `chat`, no
max-tool-iterations error is raised. -/
theorem stream_max_iterations_warns_and_marks (N : Nat)
    (providerStream : List ChatMessage → List StreamChunk)
    (mcp : Option (List ToolCall → List ToolResult))
    (msgs0 : List ChatMessage)
    (hp : ∀ msgs,
      (process_round (providerStream msgs) "" []).returned = false
      ∧ (process_round (providerStream msgs) "" []).accCalls ≠ []) :
    stream_loop providerStream mcp N msgs0
      = (stream_trace providerStream mcp N msgs0, .maxIterations) := by
  induction N generalizing msgs0 with
  | zero => rfl
  | succ n ih =>
      obtain ⟨hret, hcalls⟩ := hp msgs0
      have hemp : ¬(process_round (providerStream msgs0) "" []).accCalls.isEmpty := by
        simpa [List.isEmpty_iff] using hcalls
      simp only [stream_loop, stream_trace, hret, Bool.false_eq_true,
        if_false, hemp, ih]

/-- Witness for C5 (amended): the counterexample's always-tool-call
stream with bound 2. -/
theorem stream_max_iterations_warns_and_marks_witness :
    stream_loop (fun _ => [⟨none, [⟨"c1", "t", []⟩], false, none⟩,
        ⟨none, [], true, some "tool_calls"⟩]) none 2 []
      = (stream_trace (fun _ => [⟨none, [⟨"c1", "t", []⟩], false, none⟩,
          ⟨none, [], true, some "tool_calls"⟩]) none 2 [],
         .maxIterations) :=
  stream_max_iterations_warns_and_marks 2
    (fun _ => [⟨none, [⟨"c1", "t", []⟩], false, none⟩,
      ⟨none, [], true, some "tool_calls"⟩]) none []
    (fun _ => ⟨rfl, fun h => List.noConfusion h⟩)

/-- C10: in both engine loops the tool-execution branch requires a
non-empty tool-call list AND finish_reason "tool_calls".  In `chat`, a
response failing either condition is returned to the caller as-is
(tool_calls field intact) after that single round-trip, and the result
does not depend on the tool executor (no tool runs).  In `stream`, a
round whose terminal chunk carries a non-"tool_calls" finish reason
forwards that terminal chunk and ends the stream, independently of the
tool executor, even when tool-call chunks were buffered. -/
theorem toolExecution_only_on_toolcalls_finish :
    (∀ (provider : List ChatMessage → LLMResponse)
        (mcp mcp' : Option (List ToolCall → List ToolResult))
        (fuel rt : Nat) (msgs : List ChatMessage),
        ((provider msgs).tool_calls = []
          ∨ (provider msgs).finish_reason ≠ "tool_calls") →
        chat_loop provider mcp (fuel + 1) msgs rt
            = .ok (provider msgs) (rt + 1) msgs
          ∧ chat_loop provider mcp (fuel + 1) msgs rt
            = chat_loop provider mcp' (fuel + 1) msgs rt)
    ∧ (∀ (providerStream : List ChatMessage → List StreamChunk)
        (mcp mcp' : Option (List ToolCall → List ToolResult))
        (fuel : Nat) (msgs : List ChatMessage)
        (tcs : List ToolCall) (terminal : StreamChunk),
        terminal.done = true →
        terminal.finish_reason ≠ some "tool_calls" →
        terminal.content = none →
        providerStream msgs = [⟨none, tcs, false, none⟩, terminal] →
        stream_loop providerStream mcp (fuel + 1) msgs
            = ([terminal], .returned)
          ∧ stream_loop providerStream mcp (fuel + 1) msgs
            = stream_loop providerStream mcp' (fuel + 1) msgs) := by
  constructor
  · intro provider mcp mcp' fuel rt msgs h
    have hcond : (provider msgs).tool_calls.isEmpty
        ∨ (provider msgs).finish_reason ≠ "tool_calls" := by
      rcases h with h | h
      · exact Or.inl (by simp [List.isEmpty_iff, h])
      · exact Or.inr h
    have h1 : chat_loop provider mcp (fuel + 1) msgs rt
        = .ok (provider msgs) (rt + 1) msgs := by
      simp only [chat_loop]
      rw [if_pos hcond]
    have h2 : chat_loop provider mcp' (fuel + 1) msgs rt
        = .ok (provider msgs) (rt + 1) msgs := by
      simp only [chat_loop]
      rw [if_pos hcond]
    exact ⟨h1, h1.trans h2.symm⟩
  · intro ps mcp mcp' fuel msgs tcs terminal hdone hfin hcont hps
    have hr : process_round (ps msgs) "" []
        = ⟨[terminal], "", tcs ++ terminal.tool_calls, true⟩ := by
      rw [hps]
      simp [process_round, strTruthy, hdone, hfin, hcont]
    have h1 : stream_loop ps mcp (fuel + 1) msgs
        = ([terminal], .returned) := by
      simp [stream_loop, hr]
    have h2 : stream_loop ps mcp' (fuel + 1) msgs
        = ([terminal], .returned) := by
      simp [stream_loop, hr]
    exact ⟨h1, h1.trans h2.symm⟩

/-- Witness for C10: a response carrying a tool call but finish_reason
"stop" is returned as final after one round-trip, and a streamed round
with buffered tool calls but a "stop" terminal chunk forwards the
terminal chunk and ends. -/
theorem toolExecution_only_on_toolcalls_finish_witness :
    chat_loop (fun _ => ⟨"ans", [⟨"c1", "t", []⟩], "stop", "", ""⟩)
        none 1 [] 0
      = .ok ⟨"ans", [⟨"c1", "t", []⟩], "stop", "", ""⟩ 1 []
    ∧ stream_loop (fun _ => [⟨none, [⟨"c1", "t", []⟩], false, none⟩,
        ⟨none, [], true, some "stop"⟩]) none 1 []
      = ([⟨none, [], true, some "stop"⟩], .returned) :=
  ⟨(toolExecution_only_on_toolcalls_finish.1
      (fun _ => ⟨"ans", [⟨"c1", "t", []⟩], "stop", "", ""⟩)
      none (some fun _ => []) 0 0 []
      (Or.inr (by decide))).1,
   (toolExecution_only_on_toolcalls_finish.2
      (fun _ => [⟨none, [⟨"c1", "t", []⟩], false, none⟩,
        ⟨none, [], true, some "stop"⟩])
      none (some fun _ => []) 0 [] [⟨"c1", "t", []⟩]
      ⟨none, [], true, some "stop"⟩ rfl (by decide) rfl rfl).1⟩

/-! ## Provider streaming tool-call accumulation
(`app/providers/anthropic.py`, `app/providers/openai.py`) -/

/-- The Anthropic SDK stream events consumed by
`AnthropicProvider.stream` (lines 179-214): a `content_block_start` of
type `tool_use` (with the block's id and tool name), any other block
start, text and partial-JSON deltas, `content_block_stop`,
`message_stop`, and any other event (ignored). -/
inductive AnthEvent where
  | blockStartToolUse (id name : String)
  | blockStartOther
  | deltaText (s : String)
  | deltaPartialJson (s : String)
  | blockStop
  | messageStop
  | otherEvent

/-- The event loop of `AnthropicProvider.stream`: `cur` is
`current_tool_call` (id, name, accumulated argument fragments), `parse`
embeds `json.loads` restricted to the code's use (an argument dict on
success, `none` for a `JSONDecodeError`, which line 201 turns into empty
arguments). -/
def anthropic_stream_run (parse : String → Option (List (String × Json))) :
    Option (String × String × String) → List AnthEvent → List StreamChunk
  | _, [] => []
  | cur, e :: rest =>
      match e with
      | .blockStartToolUse i n =>
          anthropic_stream_run parse (some (i, n, "")) rest
      | .blockStartOther => anthropic_stream_run parse cur rest
      | .deltaText s =>
          ⟨some s, [], false, none⟩ :: anthropic_stream_run parse cur rest
      | .deltaPartialJson s =>
          match cur with
          | some (i, n, buf) =>
              anthropic_stream_run parse (some (i, n, buf ++ s)) rest
          | none => anthropic_stream_run parse none rest
      | .blockStop =>
          match cur with
          | some (i, n, buf) =>
              ⟨none, [⟨i, n, (parse buf).getD []⟩], false, none⟩
                :: anthropic_stream_run parse none rest
          | none => anthropic_stream_run parse none rest
      | .messageStop =>
          ⟨none, [], true, some "stop"⟩
            :: anthropic_stream_run parse cur rest
      | .otherEvent => anthropic_stream_run parse cur rest

/-- One tool-call delta of an OpenAI stream chunk
(`chunk.choices[0].delta.tool_calls[k]`): index, optional id, optional
function name, optional argument fragment. -/
structure OAIToolCallDelta where
  index : Nat
  id : Option String := none
  fnName : Option String := none
  fnArgs : Option String := none

/-- One OpenAI stream chunk's delta and finish reason (chunks without
choices are skipped by the code and not modelled). -/
structure OAIChunk where
  content : Option String := none
  tool_calls : List OAIToolCallDelta := []
  finish_reason : Option String := none

/-- One accumulator entry of `current_tool_calls` in
`OpenAIProvider.stream` (insertion-ordered, as a Python dict). -/
structure OAIAccum where
  index : Nat
  id : String
  name : String
  args : String

/-- The per-delta update of `current_tool_calls`
(`OpenAIProvider.stream` lines 194-203): insert a fresh entry on first
sight of an index (Python `or`-defaults for id and name), then append a
truthy argument fragment. -/
def oaiApplyDelta (st : List OAIAccum) (tc : OAIToolCallDelta) :
    List OAIAccum :=
  let st1 := if st.any (fun e => e.index = tc.index) then st
    else st ++ [⟨tc.index, tc.id.getD "", tc.fnName.getD "", ""⟩]
  match tc.fnArgs with
  | some frag =>
      if frag.isEmpty then st1
      else st1.map fun e =>
        if e.index = tc.index then ⟨e.index, e.id, e.name, e.args ++ frag⟩
        else e
  | none => st1

/-- The chunk loop of `OpenAIProvider.stream` (lines 182-228): forward
truthy content, fold the tool-call deltas into the accumulator, and on a
truthy finish reason emit the accumulated tool calls (each parsed with
`json.loads`, a `JSONDecodeError` degrading to empty arguments) followed
by the terminal chunk; the accumulator is not cleared and the loop
continues on any further chunks. -/
def openai_stream_run (parse : String → Option (List (String × Json))) :
    List OAIAccum → List OAIChunk → List StreamChunk
  | _, [] => []
  | st, c :: rest =>
      let contentChunks : List StreamChunk :=
        if strTruthy c.content then [⟨c.content, [], false, none⟩] else []
      let st1 := c.tool_calls.foldl oaiApplyDelta st
      let finishChunks : List StreamChunk :=
        match c.finish_reason with
        | some reason =>
            if reason.isEmpty then []
            else
              (if st1.isEmpty then []
               else [⟨none,
                 st1.map (fun e => ⟨e.id, e.name, (parse e.args).getD []⟩),
                 false, none⟩])
              ++ [⟨none, [], true,
                some (if reason = "tool_calls" then "tool_calls"
                  else "stop")⟩]
        | none => []
      contentChunks ++ finishChunks ++ openai_stream_run parse st1 rest

/-- Processing a tool-use block: the buffered fragments are concatenated
and parsed when the block closes. -/
theorem anthropic_stream_run_toolblock
    (parse : String → Option (List (String × Json))) :
    ∀ (frags : List String) (i n buf : String) (post : List AnthEvent),
    anthropic_stream_run parse (some (i, n, buf))
        (frags.map AnthEvent.deltaPartialJson
          ++ AnthEvent.blockStop :: post)
      = ⟨none, [⟨i, n, (parse (frags.foldl (· ++ ·) buf)).getD []⟩],
          false, none⟩
        :: anthropic_stream_run parse none post := by
  intro frags
  induction frags with
  | nil => intro i n buf post; rfl
  | cons f fs ih => intro i n buf post; exact ih i n (buf ++ f) post

/-- C9: malformed accumulated tool-argument JSON never aborts a live
stream.  In the Anthropic event loop, a tool-use block whose buffered
fragments fail to parse yields a completed ToolCall with the block's id
and name and empty arguments, and processing continues on the remaining
events (a terminal `message_stop` still yields the done chunk).  In the
OpenAI chunk loop, a finish-reason chunk emits every accumulated call —
a call whose buffered arguments fail to parse carrying empty arguments —
followed by the terminal done chunk, and the loop continues. -/
theorem stream_malformed_args_empty_toolcall :
    (∀ (parse : String → Option (List (String × Json)))
        (cur : Option (String × String × String)) (i n : String)
        (frags : List String) (post : List AnthEvent),
        parse (frags.foldl (· ++ ·) "") = none →
        anthropic_stream_run parse cur
            (AnthEvent.blockStartToolUse i n
              :: (frags.map AnthEvent.deltaPartialJson
                ++ AnthEvent.blockStop :: post))
          = ⟨none, [⟨i, n, []⟩], false, none⟩
            :: anthropic_stream_run parse none post)
    ∧ (∀ (parse : String → Option (List (String × Json)))
        (cur : Option (String × String × String)),
        anthropic_stream_run parse cur [AnthEvent.messageStop]
          = [⟨none, [], true, some "stop"⟩])
    ∧ (∀ (parse : String → Option (List (String × Json)))
        (idx : Nat) (cid cname buf reason : String)
        (rest : List OAIChunk),
        parse buf = none → reason ≠ "" →
        openai_stream_run parse [⟨idx, cid, cname, buf⟩]
            (⟨none, [], some reason⟩ :: rest)
          = ⟨none, [⟨cid, cname, []⟩], false, none⟩
            :: ⟨none, [], true,
                some (if reason = "tool_calls" then "tool_calls"
                  else "stop")⟩
            :: openai_stream_run parse [⟨idx, cid, cname, buf⟩] rest) := by
  refine ⟨?_, fun parse cur => rfl, ?_⟩
  · intro parse cur i n frags post hparse
    have h := anthropic_stream_run_toolblock parse frags i n "" post
    rw [hparse] at h
    exact h
  · intro parse idx cid cname buf reason rest hparse hreason
    have hremp : reason.isEmpty = false := by
      rw [Bool.eq_false_iff]
      intro h
      exact hreason ((String.isEmpty_iff reason).mp h)
    simp [openai_stream_run, strTruthy, hremp, hparse]

/-- Witness for C9: a concrete malformed fragment pair on both
providers. -/
theorem stream_malformed_args_empty_toolcall_witness :
    anthropic_stream_run (fun _ => none) none
        (AnthEvent.blockStartToolUse "tu1" "search"
          :: (["q: ", "oops"].map AnthEvent.deltaPartialJson
            ++ AnthEvent.blockStop :: [AnthEvent.messageStop]))
      = ⟨none, [⟨"tu1", "search", []⟩], false, none⟩
        :: anthropic_stream_run (fun _ => none) none [AnthEvent.messageStop]
    ∧ openai_stream_run (fun _ => none) [⟨0, "call1", "search", "q: oops"⟩]
        (⟨none, [], some "tool_calls"⟩ :: [])
      = ⟨none, [⟨"call1", "search", []⟩], false, none⟩
        :: ⟨none, [], true, some "tool_calls"⟩
        :: openai_stream_run (fun _ => none)
            [⟨0, "call1", "search", "q: oops"⟩] [] := by
  constructor
  · exact stream_malformed_args_empty_toolcall.1 (fun _ => none) none
      "tu1" "search" ["q: ", "oops"] [AnthEvent.messageStop] rfl
  · have h := stream_malformed_args_empty_toolcall.2.2 (fun _ => none)
      0 "call1" "search" "q: oops" "tool_calls" [] rfl
      (by decide)
    simpa using h
